import Mathlib

/-!
Verification development for the Career page (src/src/pages/Career.tsx).

The page fetches internship rows from a backend table, filters them
client-side with a case-insensitive substring search, and inserts an
application row when an authenticated user submits the apply form.
Strings are embedded as lists of characters (`Str`); JavaScript string
methods (`toLowerCase`, `includes`) and JS truthiness of a
`string | null` value are modelled explicitly.
-/

namespace Career

abbrev Str := List Char

/-- The `Internship` interface of Career.tsx (lines 15-21). -/
structure Internship where
  id : Str
  title : Str
  company : Str
  description : Option Str
  duration : Option Str
deriving DecidableEq, Repr

/-- A full row of the backend internships table: `select('*')` returns every
column, including `created_at`, which the backend orders by. -/
structure DBRow where
  id : Str
  title : Str
  company : Str
  description : Option Str
  duration : Option Str
  created_at : Nat
deriving DecidableEq, Repr

/-- A fetched row seen through the `Internship` interface (the columns the
page reads). -/
def DBRow.toInternship (r : DBRow) : Internship :=
  ⟨r.id, r.title, r.company, r.description, r.duration⟩

inductive ToastVariant where
  | default
  | destructive
deriving DecidableEq, Repr

/-- A toast notification as issued by the `toast` hook calls in Career.tsx. -/
structure Toast where
  title : Str
  description : Str
  variant : ToastVariant
deriving DecidableEq, Repr

/-- The row inserted into `internship_applications` (Career.tsx lines 102-108). -/
structure ApplicationRow where
  internship_id : Str
  user_id : Str
  status : Str
deriving DecidableEq, Repr

/-- A backend operation issued by the page through the supabase client. -/
inductive BackendOp where
  | selectAll (table : Str) (columns : Str) (orderColumn : Str) (ascending : Bool)
  | insertRow (table : Str) (row : ApplicationRow)
  | getUser
deriving DecidableEq, Repr

def BackendOp.isInsert : BackendOp → Bool
  | .insertRow _ _ => true
  | _ => false

def BackendOp.writesTable (t : Str) : BackendOp → Bool
  | .insertRow tbl _ => tbl == t
  | _ => false

def BackendOp.readsTable (t : Str) : BackendOp → Bool
  | .selectAll tbl _ _ _ => tbl == t
  | _ => false

/-- The React state of the Career component (Career.tsx lines 33-38). -/
structure PageState where
  searchQuery : Str
  selectedInternship : Option Internship
  isApplyDialogOpen : Bool
  isDetailsDialogOpen : Bool
  internships : List Internship
  loading : Bool
deriving DecidableEq, Repr

/-- The useState initial values: empty query, nothing selected, both dialogs
closed, empty internships list, loading true. -/
def initialState : PageState :=
  ⟨[], none, false, false, [], true⟩

def internshipsTable : Str := "internships".toList
def allColumns : Str := "*".toList
def createdAtColumn : Str := "created_at".toList
def applicationsTable : Str := "internship_applications".toList
def appliedStatus : Str := "applied".toList
def applyInternshipType : Str := "apply_internship".toList

/-! ### The search filter (Career.tsx lines 75-80) -/

/-- JavaScript `String.prototype.toLowerCase`, character-wise. -/
def toLowerStr (s : Str) : Str := s.map Char.toLower

/-- Whether `pat` is a prefix of `s` (the inner loop of JS `includes`). -/
def strStartsWith : Str → Str → Bool
  | _, [] => true
  | [], _ :: _ => false
  | c :: s, p :: ps => c == p && strStartsWith s ps

/-- JavaScript `String.prototype.includes`: `pat` occurs as a contiguous
substring of `s`. -/
def jsIncludes : Str → Str → Bool
  | [], pat => strStartsWith [] pat
  | c :: t, pat => strStartsWith (c :: t) pat || jsIncludes t pat

/-- The `matchesSearch` predicate of `filteredInternships` (Career.tsx lines
76-79).  The description conjunct mirrors the JS expression
`internship.description && internship.description.toLowerCase().includes(q)`:
a null description is falsy, and so is the empty string. -/
def matchesSearch (searchQuery : Str) (internship : Internship) : Bool :=
  jsIncludes (toLowerStr internship.title) (toLowerStr searchQuery) ||
  jsIncludes (toLowerStr internship.company) (toLowerStr searchQuery) ||
  (match internship.description with
   | none => false
   | some d => !d.isEmpty && jsIncludes (toLowerStr d) (toLowerStr searchQuery))

/-- `filteredInternships` = `internships.filter(...)` (Career.tsx line 75). -/
def filteredInternships (internships : List Internship) (searchQuery : Str) :
    List Internship :=
  internships.filter (matchesSearch searchQuery)

/-- Stated from the specification wording for claim C1 (not from the code):
an internship matches when its title, company, or non-null description
contains the query as a case-insensitive substring. -/
def specMatchesSearch (searchQuery : Str) (internship : Internship) : Bool :=
  jsIncludes (toLowerStr internship.title) (toLowerStr searchQuery) ||
  jsIncludes (toLowerStr internship.company) (toLowerStr searchQuery) ||
  (match internship.description with
   | none => false
   | some d => jsIncludes (toLowerStr d) (toLowerStr searchQuery))

/-! ### Fetching internships (Career.tsx lines 44-64) -/

/-- The toast shown when the fetch fails (Career.tsx lines 56-60). -/
def fetchErrorToast : Toast :=
  ⟨"Error loading internships".toList, "Please try again later".toList,
    .destructive⟩

/-- The query issued by fetchInternships:
`from('internships').select('*').order('created_at', { ascending: false })`. -/
def fetchSelectOp : BackendOp :=
  .selectAll internshipsTable allColumns createdAtColumn false

/-- The outcome of the awaited supabase select: either data (possibly null)
or an error (which the code throws into its catch block). -/
inductive FetchResponse where
  | ok (data : Option (List DBRow))
  | err (message : Str)
deriving Repr

/-- The observable result of running `fetchInternships`: the final component
state, the toasts shown, the number of `console.error` calls, and the backend
operations issued. -/
structure FetchEffects where
  state : PageState
  toasts : List Toast
  consoleErrors : Nat
  ops : List BackendOp
deriving Repr

/-- `fetchInternships` (Career.tsx lines 44-64): set loading, await the
select; on success store `data || []`; on error log and toast; finally clear
loading. -/
def fetchInternships (s : PageState) (resp : FetchResponse) : FetchEffects :=
  let s1 := { s with loading := true }
  match resp with
  | .ok data =>
      ⟨{ s1 with internships := (data.getD []).map DBRow.toInternship,
                 loading := false },
        [], 0, [fetchSelectOp]⟩
  | .err _ =>
      ⟨{ s1 with loading := false }, [fetchErrorToast], 1, [fetchSelectOp]⟩

/-- Newest-first order on rows: `a` precedes `b` when `b.created_at ≤
a.created_at`. -/
def createdDesc (a b : DBRow) : Prop := b.created_at ≤ a.created_at

instance : DecidableRel createdDesc :=
  fun a b => Nat.decLe b.created_at a.created_at

instance : IsTotal DBRow createdDesc :=
  ⟨fun a b => Nat.le_total b.created_at a.created_at⟩

instance : IsTrans DBRow createdDesc :=
  ⟨fun _ _ _ h1 h2 => Nat.le_trans h2 h1⟩

/-- Modelled from the spec: the backend client (the supabase integration,
which is not part of this repository) answers the select-all query with every
row of the internships table, ordered by creation time descending. -/
def runSelectAll (table : List DBRow) : List DBRow :=
  List.insertionSort createdDesc table

/-- The fetch against a backend whose internships table holds `table`. -/
def fetchFromDB (s : PageState) (table : List DBRow) : FetchEffects :=
  fetchInternships s (.ok (some (runSelectAll table)))

/-! ### Submitting an application (Career.tsx lines 94-123) -/

/-- The toast shown when the insert fails (Career.tsx lines 111-115). -/
def submitErrorToast : Toast :=
  ⟨"Error".toList, "Failed to submit application. Please try again.".toList,
    .destructive⟩

/-- The toast shown when the insert succeeds (Career.tsx lines 117-120). -/
def submitSuccessToast (title : Str) : Toast :=
  ⟨"Application Submitted!".toList,
    "Your application for ".toList ++ title ++ " has been received.".toList,
    .default⟩

/-- The observable result of running `handleApplySubmit`: the final component
state, the backend operations issued, the rows actually persisted, and the
toasts shown. -/
structure SubmitEffects where
  state : PageState
  ops : List BackendOp
  inserted : List ApplicationRow
  toasts : List Toast
deriving Repr

/-- `handleApplySubmit` (Career.tsx lines 94-123): return if no internship is
selected; get the user and return if null; insert one row
`{internship_id, user_id, status: 'applied'}`; on error show a destructive
toast, on success show the success toast and close the apply dialog.
`user` is the result of `supabase.auth.getUser()` and `insertFails` whether
the insert returns an error. -/
def handleApplySubmit (s : PageState) (user : Option Str) (insertFails : Bool) :
    SubmitEffects :=
  match s.selectedInternship with
  | none => ⟨s, [], [], []⟩
  | some sel =>
    match user with
    | none => ⟨s, [.getUser], [], []⟩
    | some uid =>
      let row : ApplicationRow := ⟨sel.id, uid, appliedStatus⟩
      let ops : List BackendOp := [.getUser, .insertRow applicationsTable row]
      if insertFails then
        ⟨s, ops, [], [submitErrorToast]⟩
      else
        ⟨{ s with isApplyDialogOpen := false }, ops, [row],
          [submitSuccessToast sel.title]⟩

/-! ### The protected-action gate (Career.tsx lines 66-73 and 87-92) -/

/-- The pending action stored by the gate: a type tag and its data payload. -/
structure PendingAction where
  type : Str
  data : Option Internship
deriving DecidableEq, Repr

/-- The state owned by the useProtectedAction hook. -/
structure ProtectedActionState where
  showAuthModal : Bool
  pendingAction : Option PendingAction
deriving DecidableEq, Repr

/-- Modelled from the spec: the useProtectedAction hook (not part of this
repository) gates a user action behind authentication.  `handleApply`
(Career.tsx lines 87-92) selects the internship and calls
`executeProtectedAction('apply_internship', internship, open-dialog)`: when
the user is already authenticated the callback runs at once; otherwise the
action is recorded as pending and the authentication modal is shown, the
callback being deferred until the prompt completes. -/
def handleApply (authed : Bool) (s : PageState) (ps : ProtectedActionState)
    (internship : Internship) : PageState × ProtectedActionState :=
  let s1 := { s with selectedInternship := some internship }
  if authed then
    ({ s1 with isApplyDialogOpen := true }, ps)
  else
    (s1, { ps with showAuthModal := true,
                   pendingAction := some ⟨applyInternshipType, some internship⟩ })

/-- The pending-action callback of the page (Career.tsx lines 66-73), run by
the hook once the authentication prompt completes: for an `apply_internship`
action with data, select that internship and open the apply dialog; the hook
then clears the pending action (hook behaviour modelled from the spec, the
callback taken from the source). -/
def completePendingAction (s : PageState) (ps : ProtectedActionState) :
    PageState × ProtectedActionState :=
  match ps.pendingAction with
  | none => (s, ps)
  | some action =>
      let s1 :=
        if action.type == applyInternshipType then
          match action.data with
          | some i => { s with selectedInternship := some i,
                               isApplyDialogOpen := true }
          | none => s
        else s
      (s1, { ps with pendingAction := none })

/-! ### Sample data used by witnesses -/

def sampleInternship : Internship :=
  ⟨"i1".toList, "Frontend Intern".toList, "Acme".toList,
    some "Build UI components".toList, some "3 months".toList⟩

def sampleState : PageState :=
  { initialState with selectedInternship := some sampleInternship }

def sampleUserId : Str := "u1".toList

/-! ### Helper lemmas about the substring test -/

theorem strStartsWith_nil_pattern (s : Str) : strStartsWith s [] = true := by
  cases s <;> rfl

theorem jsIncludes_nil_pattern (s : Str) : jsIncludes s [] = true := by
  cases s with
  | nil => rfl
  | cons c t => simp [jsIncludes, strStartsWith_nil_pattern]

theorem jsIncludes_nil_left (p : Char) (ps : Str) :
    jsIncludes [] (p :: ps) = false := rfl

/-- The code's truthiness-guarded matcher coincides with the specification's
matcher: the only candidate difference, an empty-string description, is
absorbed by the title conjunct when the query is empty and fails the
substring test otherwise. -/
theorem matchesSearch_eq_spec (q : Str) (i : Internship) :
    matchesSearch q i = specMatchesSearch q i := by
  obtain ⟨iid, ititle, icompany, idesc, idur⟩ := i
  cases idesc with
  | none => rfl
  | some d =>
    cases d with
    | cons c ds => simp [matchesSearch, specMatchesSearch]
    | nil =>
      cases q with
      | nil =>
        simp [matchesSearch, specMatchesSearch, toLowerStr,
          jsIncludes_nil_pattern]
      | cons a as =>
        simp [matchesSearch, specMatchesSearch, toLowerStr,
          jsIncludes_nil_left]

/-! ### Claim theorems -/

/-- C1: for every list of internships and every search query, the filtered
list contains exactly those internships of the list whose title, company, or
(non-null) description contains the query as a case-insensitive substring;
internships with a null description match only on title or company. -/
theorem career_filter_exact (l : List Internship) (q : Str) (i : Internship) :
    i ∈ filteredInternships l q ↔ i ∈ l ∧ specMatchesSearch q i = true := by
  simp [filteredInternships, List.mem_filter, matchesSearch_eq_spec]

/-- C8: with the empty search query the filter is the identity. -/
theorem career_filter_empty_query (l : List Internship) :
    filteredInternships l [] = l := by
  unfold filteredInternships
  rw [List.filter_eq_self]
  intro a _
  simp [matchesSearch, toLowerStr, jsIncludes_nil_pattern]

/-- C9: the filtered list is a sublist (subsequence) of the input list:
filtering never reorders, duplicates, or invents entries. -/
theorem career_filter_sublist (l : List Internship) (q : Str) :
    List.Sublist (filteredInternships l q) l :=
  List.filter_sublist l

/-- C4: the fetch issues a select of all columns of the internships table
ordered by `created_at` descending; the rows obtained are a permutation of
the whole table, sorted newest-first, and the in-memory list is exactly those
rows viewed through the `Internship` interface, in that order. -/
theorem career_fetch_reads_all_ordered (s : PageState) (table : List DBRow) :
    (fetchFromDB s table).ops = [fetchSelectOp] ∧
    fetchSelectOp = .selectAll internshipsTable allColumns createdAtColumn false ∧
    (runSelectAll table).Perm table ∧
    List.Sorted createdDesc (runSelectAll table) ∧
    (fetchFromDB s table).state.internships =
      (runSelectAll table).map DBRow.toInternship :=
  ⟨rfl, rfl, List.perm_insertionSort createdDesc table,
    List.sorted_insertionSort createdDesc table, rfl⟩

/-- C5: when the fetch fails, the error is logged once, exactly one generic
destructive toast is shown, and the internships list of the initial state is
left empty. -/
theorem career_fetch_failure (m : Str) :
    (fetchInternships initialState (.err m)).consoleErrors = 1 ∧
    (fetchInternships initialState (.err m)).toasts = [fetchErrorToast] ∧
    fetchErrorToast.variant = ToastVariant.destructive ∧
    (fetchInternships initialState (.err m)).state.internships = [] :=
  ⟨rfl, rfl, rfl, rfl⟩

/-- C2: a submission with a selected internship and an authenticated user
issues exactly one insert, into the applications table, of the row made of
the selected internship's id, the user's id, and status `applied`; when the
insert succeeds exactly that one row is persisted. -/
theorem career_submit_inserts_one_row (s : PageState) (sel : Internship)
    (uid : Str) (fails : Bool) (h : s.selectedInternship = some sel) :
    (handleApplySubmit s (some uid) fails).ops.filter BackendOp.isInsert =
      [BackendOp.insertRow applicationsTable ⟨sel.id, uid, appliedStatus⟩] ∧
    (handleApplySubmit s (some uid) false).inserted =
      [⟨sel.id, uid, appliedStatus⟩] := by
  cases fails <;> simp [handleApplySubmit, h, BackendOp.isInsert]

theorem career_submit_inserts_one_row_witness :
    sampleState.selectedInternship = some sampleInternship ∧
    ((handleApplySubmit sampleState (some sampleUserId) true).ops.filter
        BackendOp.isInsert =
      [BackendOp.insertRow applicationsTable
        ⟨sampleInternship.id, sampleUserId, appliedStatus⟩] ∧
     (handleApplySubmit sampleState (some sampleUserId) false).inserted =
      [⟨sampleInternship.id, sampleUserId, appliedStatus⟩]) :=
  ⟨rfl, career_submit_inserts_one_row sampleState sampleInternship
    sampleUserId true rfl⟩

/-- C6: when the insert fails, exactly one generic destructive toast is
shown, the insert was attempted exactly once (no retry), no row is
persisted, no success toast appears, and the component state — in particular
the open apply dialog — is unchanged. -/
theorem career_submit_failure (s : PageState) (sel : Internship) (uid : Str)
    (h : s.selectedInternship = some sel) :
    (handleApplySubmit s (some uid) true).toasts = [submitErrorToast] ∧
    submitErrorToast.variant = ToastVariant.destructive ∧
    ((handleApplySubmit s (some uid) true).ops.filter
        BackendOp.isInsert).length = 1 ∧
    (handleApplySubmit s (some uid) true).inserted = [] ∧
    (handleApplySubmit s (some uid) true).state = s := by
  refine ⟨?_, rfl, ?_, ?_, ?_⟩ <;> simp [handleApplySubmit, h, BackendOp.isInsert]

theorem career_submit_failure_witness :
    sampleState.selectedInternship = some sampleInternship ∧
    ((handleApplySubmit sampleState (some sampleUserId) true).toasts =
        [submitErrorToast] ∧
     submitErrorToast.variant = ToastVariant.destructive ∧
     ((handleApplySubmit sampleState (some sampleUserId) true).ops.filter
         BackendOp.isInsert).length = 1 ∧
     (handleApplySubmit sampleState (some sampleUserId) true).inserted = [] ∧
     (handleApplySubmit sampleState (some sampleUserId) true).state =
        sampleState) :=
  ⟨rfl, career_submit_failure sampleState sampleInternship sampleUserId rfl⟩

/-- C7: every backend operation the page issues — through the fetch or
through the submit handler, on any state and any outcome — neither writes
the internships table nor reads the applications table. -/
theorem career_frame_effects (s : PageState) (resp : FetchResponse)
    (user : Option Str) (fails : Bool) :
    (fetchInternships s resp).ops.all
      (fun op => !op.writesTable internshipsTable &&
                 !op.readsTable applicationsTable) = true ∧
    (handleApplySubmit s user fails).ops.all
      (fun op => !op.writesTable internshipsTable &&
                 !op.readsTable applicationsTable) = true := by
  constructor
  · cases resp <;>
      simp [fetchInternships, fetchSelectOp, BackendOp.writesTable,
        BackendOp.readsTable] <;> decide
  · cases hsel : s.selectedInternship with
    | none => simp [handleApplySubmit, hsel]
    | some sel =>
      cases user with
      | none =>
        simp [handleApplySubmit, hsel, BackendOp.writesTable,
          BackendOp.readsTable]
      | some uid =>
        cases fails <;>
          simp [handleApplySubmit, hsel, BackendOp.writesTable,
            BackendOp.readsTable] <;> decide

/-- C3: applying while unauthenticated does not open the apply dialog; it
shows the authentication modal and records the pending apply action, and only
completing that pending action (after the prompt) opens the dialog.  And the
submit handler inserts nothing when no authenticated user is obtained. -/
theorem career_gated_apply (s : PageState) (ps : ProtectedActionState)
    (i : Internship) (fails : Bool) (h : s.isApplyDialogOpen = false) :
    (handleApply false s ps i).1.isApplyDialogOpen = false ∧
    (handleApply false s ps i).2.showAuthModal = true ∧
    (handleApply false s ps i).2.pendingAction =
      some ⟨applyInternshipType, some i⟩ ∧
    (completePendingAction (handleApply false s ps i).1
        (handleApply false s ps i).2).1.isApplyDialogOpen = true ∧
    (completePendingAction (handleApply false s ps i).1
        (handleApply false s ps i).2).1.selectedInternship = some i ∧
    (handleApplySubmit s none fails).inserted = [] ∧
    (handleApplySubmit s none fails).ops.all
      (fun op => !op.isInsert) = true := by
  refine ⟨?_, rfl, rfl, ?_, ?_, ?_, ?_⟩
  · simpa [handleApply] using h
  · simp [completePendingAction, handleApply]
  · simp [completePendingAction, handleApply]
  · cases hsel : s.selectedInternship <;> simp [handleApplySubmit, hsel]
  · cases hsel : s.selectedInternship <;>
      simp [handleApplySubmit, hsel, BackendOp.isInsert]

theorem career_gated_apply_witness :
    initialState.isApplyDialogOpen = false ∧
    ((handleApply false initialState ⟨false, none⟩ sampleInternship).1.isApplyDialogOpen
        = false ∧
     (handleApply false initialState ⟨false, none⟩ sampleInternship).2.showAuthModal
        = true ∧
     (handleApply false initialState ⟨false, none⟩ sampleInternship).2.pendingAction
        = some ⟨applyInternshipType, some sampleInternship⟩ ∧
     (completePendingAction
        (handleApply false initialState ⟨false, none⟩ sampleInternship).1
        (handleApply false initialState ⟨false, none⟩ sampleInternship).2).1.isApplyDialogOpen
        = true ∧
     (completePendingAction
        (handleApply false initialState ⟨false, none⟩ sampleInternship).1
        (handleApply false initialState ⟨false, none⟩ sampleInternship).2).1.selectedInternship
        = some sampleInternship ∧
     (handleApplySubmit initialState none true).inserted = [] ∧
     (handleApplySubmit initialState none true).ops.all
        (fun op => !op.isInsert) = true) :=
  ⟨rfl, career_gated_apply initialState ⟨false, none⟩ sampleInternship true rfl⟩

/-- C10: submitting with no selected internship is a complete no-op (state,
operations, inserts and toasts all unchanged or empty), and submitting when
no authenticated user is obtained changes no state, inserts no row and shows
no toast. -/
theorem career_submit_noop (s : PageState) (user : Option Str) (fails : Bool) :
    (s.selectedInternship = none →
      handleApplySubmit s user fails = ⟨s, [], [], []⟩) ∧
    (handleApplySubmit s none fails).state = s ∧
    (handleApplySubmit s none fails).inserted = [] ∧
    (handleApplySubmit s none fails).toasts = [] := by
  refine ⟨fun h => by simp [handleApplySubmit, h], ?_, ?_, ?_⟩ <;>
    cases hsel : s.selectedInternship <;> simp [handleApplySubmit, hsel]

theorem career_submit_noop_witness :
    initialState.selectedInternship = none ∧
    handleApplySubmit initialState (some sampleUserId) true =
      ⟨initialState, [], [], []⟩ :=
  ⟨rfl, (career_submit_noop initialState (some sampleUserId) true).1 rfl⟩

end Career
